import Mathlib

/-!
Verification of the downtime detection and categorization engine of
`src/downtime_analyzer.py` (class `DowntimeAnalyzer`).

Shallow embedding conventions:
* Python `datetime` timestamps and float second counts are modelled as `ℚ`
  (`total_seconds()` may be fractional; `ℚ` keeps the arithmetic exact).
* Python `int(x)` applied to a float is truncation toward zero (`truncToInt`).
* The per-location `defaultdict` of trackers is a total function
  `String → Tracker` together with the list `known` of keys created so far
  (`defaultdict.__getitem__` inserts its key; `touch` models that insertion).
* A Python exception escaping to the caller is `some e : Option PyError` in
  the result triple; the analyzer object keeps all mutations performed before
  the raise, so the state component of the triple is that partially
  mutated state.
* `detected_at = datetime.now()` is wall clock and is not part of the model:
  the `Episode` structure carries every other field of the Python dict, and
  `get_recent_downtimes`' cutoff test on `detected_at` is abstracted as a
  boolean predicate on episodes (its most-recent-first reordering of the
  result list is likewise not modelled).
-/

namespace Induct

/-- One configured downtime category: a named inclusive numeric range
(config entries `{name, min, max}`). -/
structure Category where
  name : String
  min : ℚ
  max : ℚ
deriving Repr, DecidableEq

/-- A well-formed scan event, with all four fields present
(the dicts produced by the scraper). -/
structure Scan where
  location : String
  timestamp : ℚ
  tracking_id : String
  status : String
deriving Repr, DecidableEq

/-- The dict the analyzer stores in `tracker['last_scan']`. -/
structure LastScan where
  timestamp : ℚ
  tracking_id : String
  status : String
deriving Repr, DecidableEq

/-- One detected downtime event (the dict built in `_process_single_scan`),
minus the wall-clock `detected_at` field. -/
structure Episode where
  location : String
  downtime_seconds : ℤ
  category : String
  start_timestamp : ℚ
  end_timestamp : ℚ
  start_tracking_id : String
  end_tracking_id : String
  start_status : String
  end_status : String
deriving Repr, DecidableEq

/-- Per-location tracker state (one entry of `self.location_trackers`).
`category_counts` is the `defaultdict(int)`: a total function that is `0`
away from the keys ever incremented. -/
structure Tracker where
  last_scan : Option LastScan
  downtimes : List Episode
  total_downtime : ℚ
  category_counts : String → ℕ

/-- The analyzer's mutable state: the tracker map plus the list of keys the
`defaultdict` has created, in insertion order (Python dicts preserve it). -/
structure AnalyzerState where
  trackers : String → Tracker
  known : List String

/-- Constructor configuration: `categories` and `break_threshold`
(default 780 in the source). -/
structure Config where
  categories : List Category
  break_threshold : ℚ

/-- Python exceptions the analyzer can raise: `KeyError` on a missing dict
field and `IndexError` from `self.categories[0]` on an empty category list. -/
inductive PyError where
  | keyError (field : String)
  | indexError
deriving Repr, DecidableEq

/-- Python `int()` on a float: truncation toward zero. -/
def truncToInt (q : ℚ) : ℤ := if 0 ≤ q then ⌊q⌋ else ⌈q⌉

/-- Rendering of a numeric boundary inside the synthetic labels
(the f-string interpolation `f"<{...}"` / `f">{...}"`); integral values
print without a fractional part, exactly as the integer boundaries of the
shipped configuration do in Python. -/
def ratStr (q : ℚ) : String :=
  if q.den = 1 then toString q.num else toString q.num ++ "/" ++ toString q.den

/-- The `for category in self.categories` loop of `_categorize_downtime`:
first category whose inclusive `[min, max]` range contains the duration. -/
def findCategory (seconds : ℚ) : List Category → Option Category
  | [] => none
  | c :: rest =>
    if c.min ≤ seconds ∧ seconds ≤ c.max then some c else findCategory seconds rest

/-- Model of `_categorize_downtime`: first category whose inclusive `[min, max]` range
contains the duration; otherwise the synthetic label `"<{first.min}"` when
below the first category's `min`, else `">{last.max}"`. On an empty category
list the fallback `self.categories[0]` raises `IndexError`, modelled as
`none`. -/
def categorize (cats : List Category) (seconds : ℚ) : Option String :=
  match findCategory seconds cats with
  | some c => some c.name
  | none =>
    match cats with
    | [] => none
    | first :: rest =>
      if seconds < first.min then some ("<" ++ ratStr first.min)
      else some (">" ++ ratStr (rest.getLastD first).max)

/-- Model of `self.location_trackers[location]`: the `defaultdict` lookup inserts the
key (initial tracker) if absent; the list of known keys grows at the end. -/
def touch (st : AnalyzerState) (location : String) : AnalyzerState :=
  { st with known := if location ∈ st.known then st.known else st.known ++ [location] }

/-- Assignment of a fresh tracker dict to `self.location_trackers[location]`. -/
def setTracker (st : AnalyzerState) (location : String) (t : Tracker) : AnalyzerState :=
  { st with trackers := Function.update st.trackers location t }

/-- The repeated assignment `tracker['last_scan'] = {'timestamp': ...,
'tracking_id': ..., 'status': ...}`. -/
def withLastScan (t : Tracker) (timestamp : ℚ) (tid stat : String) : Tracker :=
  { t with last_scan := some ⟨timestamp, tid, stat⟩ }

/-- The `downtime_event` dict literal of `_process_single_scan` (lines
87-98 of the source), for a qualifying gap between `last` and `scan`. -/
def mkEpisode (scan : Scan) (last : LastScan) (category : String) : Episode :=
  { location := scan.location
    downtime_seconds := truncToInt (scan.timestamp - last.timestamp)
    category := category
    start_timestamp := last.timestamp
    end_timestamp := scan.timestamp
    start_tracking_id := last.tracking_id
    end_tracking_id := scan.tracking_id
    start_status := last.status
    end_status := scan.status }

/-- The tracker-update block of `_process_single_scan` (lines 100-108):
append the episode, add the untruncated gap to the running total, bump the
category counter, overwrite `last_scan`. -/
def trackEpisode (t : Tracker) (scan : Scan) (gap : ℚ) (category : String)
    (ev : Episode) : Tracker :=
  { last_scan := some ⟨scan.timestamp, scan.tracking_id, scan.status⟩
    downtimes := t.downtimes ++ [ev]
    total_downtime := t.total_downtime + gap
    category_counts := fun c =>
      if c = category then t.category_counts c + 1 else t.category_counts c }

/-- Model of `_process_single_scan` on a well-formed scan. Result: the analyzer state
after the call, the emitted downtime event if any, and the raised exception
if any (only `IndexError` from an empty category list is possible here). -/
def processSingleScan (cfg : Config) (st0 : AnalyzerState) (scan : Scan) :
    AnalyzerState × Option Episode × Option PyError :=
  let location := scan.location
  let timestamp := scan.timestamp
  let st := touch st0 location
  let tracker := st.trackers location
  match tracker.last_scan with
  | none =>
    -- first scan for this location: just record it
    (setTracker st location (withLastScan tracker timestamp scan.tracking_id scan.status),
     none, none)
  | some last =>
    let downtime_seconds := timestamp - last.timestamp
    if downtime_seconds > cfg.break_threshold then
      -- gap longer than the break threshold: ignored, last_scan updated
      (setTracker st location (withLastScan tracker timestamp scan.tracking_id scan.status),
       none, none)
    else if downtime_seconds < 20 then
      -- below the 20 s floor: ignored, last_scan updated
      (setTracker st location (withLastScan tracker timestamp scan.tracking_id scan.status),
       none, none)
    else
      match categorize cfg.categories downtime_seconds with
      | none => (st, none, some .indexError)
      | some category =>
        let ev : Episode := mkEpisode scan last category
        (setTracker st location (trackEpisode tracker scan downtime_seconds category ev),
         some ev, none)

/-- Sort key of `process_scans`: `lambda x: x['timestamp']`. -/
def tsLE (a b : Scan) : Prop := a.timestamp ≤ b.timestamp

instance : DecidableRel tsLE := fun a b => inferInstanceAs (Decidable (a.timestamp ≤ b.timestamp))

/-- The `for scan in sorted_scans` loop of `process_scans`. On an exception
the loop stops: the state keeps the mutations of the scans already processed
and the locally collected `new_downtimes` list is lost to the caller. -/
def processLoop (cfg : Config) (st : AnalyzerState) :
    List Scan → AnalyzerState × List Episode × Option PyError
  | [] => (st, [], none)
  | s :: rest =>
    match processSingleScan cfg st s with
    | (st1, _, some e) => (st1, [], some e)
    | (st1, e?, none) =>
      let (st2, evs, err?) := processLoop cfg st1 rest
      (st2, e?.toList ++ evs, err?)

/-- Model of `process_scans` on well-formed scans: stable sort by timestamp
(Python's `sorted` is stable; `List.insertionSort` with a `≤` key relation
is the same stable sort), then the processing loop. The dict the Python
function returns also carries `_get_location_summaries()`, recoverable from
the returned state via `getLocationSummaries`. -/
def processScans (cfg : Config) (st : AnalyzerState) (scans : List Scan) :
    AnalyzerState × List Episode × Option PyError :=
  processLoop cfg st (List.insertionSort tsLE scans)

/-- A raw scraped event: any of the four dict fields may be missing. -/
structure RawScan where
  location : Option String
  timestamp : Option ℚ
  tracking_id : Option String
  status : Option String
deriving Repr, DecidableEq

/-- Model of `_process_single_scan` on a raw dict, with field accesses in source
order: `scan['location']` (line 46), `scan['timestamp']` (line 47), the
`defaultdict` lookup, then per branch `scan['tracking_id']` before
`scan['status']`; in the emitting branch `_categorize_downtime` runs before
the event dict literal reads `scan['tracking_id']`/`scan['status']`.
A missing field raises `KeyError` at that point. -/
def processSingleRaw (cfg : Config) (st0 : AnalyzerState) (r : RawScan) :
    AnalyzerState × Option Episode × Option PyError :=
  match r.location with
  | none => (st0, none, some (.keyError "location"))
  | some location =>
  match r.timestamp with
  | none => (st0, none, some (.keyError "timestamp"))
  | some timestamp =>
  let st := touch st0 location
  let tracker := st.trackers location
  match tracker.last_scan with
  | none =>
    match r.tracking_id, r.status with
    | none, _ => (st, none, some (.keyError "tracking_id"))
    | some _, none => (st, none, some (.keyError "status"))
    | some tid, some stat =>
      (setTracker st location (withLastScan tracker timestamp tid stat), none, none)
  | some last =>
    let downtime_seconds := timestamp - last.timestamp
    if downtime_seconds > cfg.break_threshold then
      match r.tracking_id, r.status with
      | none, _ => (st, none, some (.keyError "tracking_id"))
      | some _, none => (st, none, some (.keyError "status"))
      | some tid, some stat =>
        (setTracker st location (withLastScan tracker timestamp tid stat), none, none)
    else if downtime_seconds < 20 then
      match r.tracking_id, r.status with
      | none, _ => (st, none, some (.keyError "tracking_id"))
      | some _, none => (st, none, some (.keyError "status"))
      | some tid, some stat =>
        (setTracker st location (withLastScan tracker timestamp tid stat), none, none)
    else
      match categorize cfg.categories downtime_seconds with
      | none => (st, none, some .indexError)
      | some category =>
        match r.tracking_id, r.status with
        | none, _ => (st, none, some (.keyError "tracking_id"))
        | some _, none => (st, none, some (.keyError "status"))
        | some tid, some stat =>
          let scan : Scan := ⟨location, timestamp, tid, stat⟩
          let ev : Episode := mkEpisode scan last category
          (setTracker st location (trackEpisode tracker scan downtime_seconds category ev),
           some ev, none)

/-- Sort key on raw scans; only evaluated under the guard that every
timestamp is present, so the default is never read. -/
def rawLE (a b : RawScan) : Prop := a.timestamp.getD 0 ≤ b.timestamp.getD 0

instance : DecidableRel rawLE := fun a b =>
  inferInstanceAs (Decidable (a.timestamp.getD 0 ≤ b.timestamp.getD 0))

/-- The processing loop over raw scans, stopping at the first exception. -/
def processLoopRaw (cfg : Config) (st : AnalyzerState) :
    List RawScan → AnalyzerState × List Episode × Option PyError
  | [] => (st, [], none)
  | r :: rest =>
    match processSingleRaw cfg st r with
    | (st1, _, some e) => (st1, [], some e)
    | (st1, e?, none) =>
      let (st2, evs, err?) := processLoopRaw cfg st1 rest
      (st2, e?.toList ++ evs, err?)

/-- Model of `process_scans` on raw dicts. CPython's `sorted(..., key=...)`
materialises every key before reordering, so a single missing `timestamp`
raises `KeyError` before any scan is processed and the state is untouched. -/
def processScansRaw (cfg : Config) (st : AnalyzerState) (raws : List RawScan) :
    AnalyzerState × List Episode × Option PyError :=
  if raws.all (fun r => r.timestamp.isSome) then
    processLoopRaw cfg st (List.insertionSort rawLE raws)
  else (st, [], some (.keyError "timestamp"))

/-- The freshly constructed tracker dict of the `defaultdict` factory. -/
def initTracker : Tracker := ⟨none, [], 0, fun _ => 0⟩

/-- The analyzer state right after `__init__`. -/
def initState : AnalyzerState := ⟨fun _ => initTracker, []⟩

/-- Model of `reset_shift_data`: every known location's tracker is replaced by a fresh
initial tracker; the key set itself is preserved. -/
def resetShiftData (st : AnalyzerState) : AnalyzerState :=
  { st with trackers := fun l => if l ∈ st.known then initTracker else st.trackers l }

/-- One per-location entry of `_get_location_summaries()`. -/
structure Summary where
  total_downtime : ℤ
  event_count : ℕ
  category_counts : String → ℕ
  last_scan_time : Option ℚ
  average_downtime : ℤ

/-- The summary dict built for one tracker: note `int()` truncation of the
total and of the average `total / max(1, len(downtimes))`. -/
def summaryOf (t : Tracker) : Summary :=
  { total_downtime := truncToInt t.total_downtime
    event_count := t.downtimes.length
    category_counts := t.category_counts
    last_scan_time := t.last_scan.map (·.timestamp)
    average_downtime := truncToInt (t.total_downtime / (max 1 t.downtimes.length : ℕ)) }

/-- Model of `_get_location_summaries`: one summary per known location, in key order. -/
def getLocationSummaries (st : AnalyzerState) : List (String × Summary) :=
  st.known.map (fun l => (l, summaryOf (st.trackers l)))

/-- Model of `get_recent_downtimes`, with the wall-clock cutoff test on `detected_at`
abstracted as the predicate `isRecent` (and the most-recent-first reordering
not modelled: after a reset the claim only needs emptiness). -/
def getRecentDowntimes (st : AnalyzerState) (isRecent : Episode → Bool) : List Episode :=
  (st.known.map (fun l => (st.trackers l).downtimes.filter isRecent)).flatten

/-- One entry of `check_shift_end_alerts`' result. -/
structure Alert where
  location : String
  total_downtime : ℤ
  threshold : ℚ
  event_count : ℕ
  last_scan : Option ℚ
deriving Repr, DecidableEq

/-- Model of `check_shift_end_alerts`: for each known location whose accumulated
total strictly exceeds the threshold, one alert dict. -/
def checkShiftEndAlerts (st : AnalyzerState) (threshold : ℚ) : List Alert :=
  st.known.filterMap (fun l =>
    let t := st.trackers l
    if t.total_downtime > threshold then
      some ⟨l, truncToInt t.total_downtime, threshold, t.downtimes.length,
            t.last_scan.map (·.timestamp)⟩
    else none)

/-- States reachable from a fresh analyzer by any sequence of ingest
(`process_scans`, including runs cut short by an exception, which leave the
partially mutated state behind) and `reset_shift_data` calls. -/
inductive Reachable (cfg : Config) : AnalyzerState → Prop
  | init : Reachable cfg initState
  | ingest (st : AnalyzerState) (scans : List Scan) :
      Reachable cfg st → Reachable cfg (processScans cfg st scans).1
  | reset (st : AnalyzerState) :
      Reachable cfg st → Reachable cfg (resetShiftData st)

/-- Consecutive differences of a timestamp sequence (the gaps the spec's
properties quantify over). -/
def gapsOf : List ℚ → List ℚ
  | [] => []
  | [_] => []
  | a :: b :: rest => (b - a) :: gapsOf (b :: rest)

/-- A raw event is malformed when at least one of the four fields the engine
reads is missing. -/
def malformed (r : RawScan) : Prop :=
  r.location = none ∨ r.timestamp = none ∨ r.tracking_id = none ∨ r.status = none

/-- The tracker bookkeeping invariant, stated with the untruncated gap
`end_timestamp - start_timestamp` of each stored episode: the running total
is the sum of those gaps, and each category counter counts the episodes
carrying that category name. -/
def Inv (st : AnalyzerState) : Prop :=
  ∀ L : String,
    (st.trackers L).total_downtime =
      (((st.trackers L).downtimes).map (fun e => e.end_timestamp - e.start_timestamp)).sum ∧
    ∀ c : String,
      (st.trackers L).category_counts c =
        ((st.trackers L).downtimes).countP (fun e => e.category == c)

instance : IsTotal Scan tsLE := ⟨fun a b => le_total a.timestamp b.timestamp⟩

instance : IsTrans Scan tsLE := ⟨fun _ _ _ h1 h2 => le_trans h1 h2⟩

/-- The category list of the shipped configuration. -/
def demoCats : List Category :=
  [⟨"20-60", 20, 60⟩, ⟨"60-120", 60, 120⟩, ⟨"120-780", 120, 780⟩]

/-- The shipped configuration: default break threshold 780 s. -/
def demoCfg : Config := ⟨demoCats, 780⟩

/-- A state with one known location `GA1` whose tracker holds a last scan at
t = 100 and empty aggregates. -/
def demoState : AnalyzerState :=
  ⟨Function.update (fun _ => initTracker) "GA1"
    ⟨some ⟨100, "T1", "INDUCTED"⟩, [], 0, fun _ => 0⟩, ["GA1"]⟩

/-! ### Structural lemmas about the state helpers -/

theorem touch_trackers (st : AnalyzerState) (l : String) :
    (touch st l).trackers = st.trackers := rfl

theorem setTracker_self (st : AnalyzerState) (l : String) (t : Tracker) :
    (setTracker st l t).trackers l = t := by
  simp [setTracker]

theorem setTracker_other (st : AnalyzerState) (l l' : String) (t : Tracker)
    (h : l' ≠ l) : (setTracker st l t).trackers l' = st.trackers l' := by
  simp [setTracker, Function.update_noteq h]

/-! ### Branch equations for `_process_single_scan` on well-formed scans -/

theorem pss_first (cfg : Config) (st : AnalyzerState) (scan : Scan)
    (h : (st.trackers scan.location).last_scan = none) :
    processSingleScan cfg st scan =
      (setTracker (touch st scan.location) scan.location
        (withLastScan (st.trackers scan.location) scan.timestamp
          scan.tracking_id scan.status), none, none) := by
  simp only [processSingleScan, touch_trackers, h]

theorem pss_break (cfg : Config) (st : AnalyzerState) (scan : Scan) (last : LastScan)
    (h : (st.trackers scan.location).last_scan = some last)
    (hgt : scan.timestamp - last.timestamp > cfg.break_threshold) :
    processSingleScan cfg st scan =
      (setTracker (touch st scan.location) scan.location
        (withLastScan (st.trackers scan.location) scan.timestamp
          scan.tracking_id scan.status), none, none) := by
  simp only [processSingleScan, touch_trackers, h, hgt, if_true]

theorem pss_small (cfg : Config) (st : AnalyzerState) (scan : Scan) (last : LastScan)
    (h : (st.trackers scan.location).last_scan = some last)
    (hng : ¬ scan.timestamp - last.timestamp > cfg.break_threshold)
    (hlt : scan.timestamp - last.timestamp < 20) :
    processSingleScan cfg st scan =
      (setTracker (touch st scan.location) scan.location
        (withLastScan (st.trackers scan.location) scan.timestamp
          scan.tracking_id scan.status), none, none) := by
  simp only [processSingleScan, touch_trackers, h, hng, hlt, if_true, if_false]

theorem pss_emit (cfg : Config) (st : AnalyzerState) (scan : Scan) (last : LastScan)
    (category : String)
    (h : (st.trackers scan.location).last_scan = some last)
    (hng : ¬ scan.timestamp - last.timestamp > cfg.break_threshold)
    (hnl : ¬ scan.timestamp - last.timestamp < 20)
    (hc : categorize cfg.categories (scan.timestamp - last.timestamp) = some category) :
    processSingleScan cfg st scan =
      (setTracker (touch st scan.location) scan.location
        (trackEpisode (st.trackers scan.location) scan
          (scan.timestamp - last.timestamp) category (mkEpisode scan last category)),
       some (mkEpisode scan last category), none) := by
  simp only [processSingleScan, touch_trackers, h, hng, hnl, hc, if_false]

theorem pss_err (cfg : Config) (st : AnalyzerState) (scan : Scan) (last : LastScan)
    (h : (st.trackers scan.location).last_scan = some last)
    (hng : ¬ scan.timestamp - last.timestamp > cfg.break_threshold)
    (hnl : ¬ scan.timestamp - last.timestamp < 20)
    (hc : categorize cfg.categories (scan.timestamp - last.timestamp) = none) :
    processSingleScan cfg st scan = (touch st scan.location, none, some .indexError) := by
  simp only [processSingleScan, touch_trackers, h, hng, hnl, hc, if_false]

/-! ### Totality of the categorizer on a non-empty category list -/

theorem categorize_isSome (cats : List Category) (s : ℚ) (hc : cats ≠ []) :
    (categorize cats s).isSome := by
  unfold categorize
  rcases hfc : findCategory s cats with _ | c
  · cases cats with
    | nil => exact absurd rfl hc
    | cons first rest =>
      by_cases hlt : s < first.min <;> simp [hlt]
  · rfl

/-- C1: with a tracked `last_scan` and a positive gap, `_process_single_scan`
emits exactly one downtime episode iff `20 ≤ gap ≤ break_threshold`, with
both boundaries inclusive, and in every case updates `last_scan` to the new
scan. -/
theorem C1_main (cfg : Config) (st : AnalyzerState) (scan : Scan) (last : LastScan)
    (hlast : (st.trackers scan.location).last_scan = some last)
    (hpos : last.timestamp < scan.timestamp)
    (hcats : cfg.categories ≠ []) :
    ∃ st1 emitted,
      processSingleScan cfg st scan = (st1, emitted, none) ∧
      (emitted.isSome ↔
        20 ≤ scan.timestamp - last.timestamp ∧
          scan.timestamp - last.timestamp ≤ cfg.break_threshold) ∧
      (st1.trackers scan.location).last_scan =
        some ⟨scan.timestamp, scan.tracking_id, scan.status⟩ := by
  by_cases hgt : scan.timestamp - last.timestamp > cfg.break_threshold
  · refine ⟨_, _, pss_break cfg st scan last hlast hgt, ?_, ?_⟩
    · simp only [Option.isSome_none, Bool.false_eq_true, false_iff, not_and]
      intro _ hle
      linarith
    · rw [setTracker_self]
      rfl
  · by_cases hlt : scan.timestamp - last.timestamp < 20
    · refine ⟨_, _, pss_small cfg st scan last hlast hgt hlt, ?_, ?_⟩
      · simp only [Option.isSome_none, Bool.false_eq_true, false_iff, not_and]
        intro h20 _
        linarith
      · rw [setTracker_self]
        rfl
    · obtain ⟨category, hc⟩ :=
        Option.isSome_iff_exists.mp (categorize_isSome cfg.categories _ hcats)
      refine ⟨_, _, pss_emit cfg st scan last category hlast hgt hlt hc, ?_, ?_⟩
      · simp only [Option.isSome_some, true_iff]
        exact ⟨le_of_not_lt hlt, le_of_not_lt hgt⟩
      · rw [setTracker_self]
        rfl

/-- Witness for C1 at the shipped configuration: location `GA1` tracked at
t = 100, new scan at t = 145 (gap 45 s, inside the window). -/
theorem C1_witness :
    ∃ st1 emitted,
      processSingleScan demoCfg demoState ⟨"GA1", 145, "T2", "INDUCTED"⟩ =
        (st1, emitted, none) ∧
      (emitted.isSome ↔
        20 ≤ (145:ℚ) - 100 ∧ (145:ℚ) - 100 ≤ demoCfg.break_threshold) ∧
      (st1.trackers "GA1").last_scan = some ⟨145, "T2", "INDUCTED"⟩ :=
  C1_main demoCfg demoState ⟨"GA1", 145, "T2", "INDUCTED"⟩ ⟨100, "T1", "INDUCTED"⟩
    (by decide) (by decide) (by decide)

/-- C7 counterexample: at `GA1` the tracker holds a last scan at t = 100; an
out-of-order event at t = 50 (negative gap) emits nothing, but the source
takes the `< 20` branch, which DOES overwrite `last_scan` with the stale
event — the state does not stay unchanged as claimed. -/
theorem C7_counterexample :
    ((processSingleScan demoCfg demoState ⟨"GA1", 50, "T2", "STOW"⟩).1.trackers
        "GA1").last_scan = some ⟨50, "T2", "STOW"⟩ ∧
    (processSingleScan demoCfg demoState ⟨"GA1", 50, "T2", "STOW"⟩).2.1 = none ∧
    some (⟨50, "T2", "STOW"⟩ : LastScan) ≠ some ⟨100, "T1", "INDUCTED"⟩ := by
  have h := pss_small demoCfg demoState ⟨"GA1", 50, "T2", "STOW"⟩ ⟨100, "T1", "INDUCTED"⟩
    (by decide) (by norm_num [demoCfg]) (by norm_num)
  rw [h]
  exact ⟨by rw [setTracker_self]; rfl, rfl, by decide⟩

/-- C7 as amended: an event whose timestamp is not after the tracked
`last_scan` (zero or negative gap) emits no episode and leaves episodes,
total and counters unchanged, but `last_scan` IS overwritten with the
out-of-order event (the `< 20` noise branch of the source, or the break
branch if the threshold is negative). -/
theorem C7_main (cfg : Config) (st : AnalyzerState) (scan : Scan) (last : LastScan)
    (hlast : (st.trackers scan.location).last_scan = some last)
    (hle : scan.timestamp ≤ last.timestamp) :
    (processSingleScan cfg st scan).2.1 = none ∧
    (processSingleScan cfg st scan).2.2 = none ∧
    ((processSingleScan cfg st scan).1.trackers scan.location).last_scan =
      some ⟨scan.timestamp, scan.tracking_id, scan.status⟩ ∧
    ((processSingleScan cfg st scan).1.trackers scan.location).downtimes =
      (st.trackers scan.location).downtimes ∧
    ((processSingleScan cfg st scan).1.trackers scan.location).total_downtime =
      (st.trackers scan.location).total_downtime ∧
    ((processSingleScan cfg st scan).1.trackers scan.location).category_counts =
      (st.trackers scan.location).category_counts := by
  have key : processSingleScan cfg st scan =
      (setTracker (touch st scan.location) scan.location
        (withLastScan (st.trackers scan.location) scan.timestamp
          scan.tracking_id scan.status), none, none) := by
    by_cases hgt : scan.timestamp - last.timestamp > cfg.break_threshold
    · exact pss_break cfg st scan last hlast hgt
    · exact pss_small cfg st scan last hlast hgt (by linarith)
  rw [key]
  refine ⟨rfl, rfl, ?_, ?_, ?_, ?_⟩ <;> rw [setTracker_self] <;> rfl

/-- Witness for C7 as amended: zero gap (a duplicate timestamp) at `GA1`. -/
theorem C7_witness :
    (processSingleScan demoCfg demoState ⟨"GA1", 100, "T2", "STOW"⟩).2.1 = none ∧
    (processSingleScan demoCfg demoState ⟨"GA1", 100, "T2", "STOW"⟩).2.2 = none ∧
    ((processSingleScan demoCfg demoState ⟨"GA1", 100, "T2", "STOW"⟩).1.trackers
        "GA1").last_scan = some ⟨100, "T2", "STOW"⟩ ∧
    ((processSingleScan demoCfg demoState ⟨"GA1", 100, "T2", "STOW"⟩).1.trackers
        "GA1").downtimes = (demoState.trackers "GA1").downtimes ∧
    ((processSingleScan demoCfg demoState ⟨"GA1", 100, "T2", "STOW"⟩).1.trackers
        "GA1").total_downtime = (demoState.trackers "GA1").total_downtime ∧
    ((processSingleScan demoCfg demoState ⟨"GA1", 100, "T2", "STOW"⟩).1.trackers
        "GA1").category_counts = (demoState.trackers "GA1").category_counts :=
  C7_main demoCfg demoState ⟨"GA1", 100, "T2", "STOW"⟩ ⟨100, "T1", "INDUCTED"⟩
    (by decide) (by decide)

/-- C10: every emitted episode stores `duration_seconds` as the truncation
toward zero of the exact gap `end_timestamp - start_timestamp`, this integer
lies in `[20, break_threshold]`, and the tracker's running total accumulates
the untruncated gap. -/
theorem C10_main (cfg : Config) (st : AnalyzerState) (scan : Scan)
    (st1 : AnalyzerState) (ev : Episode)
    (h : processSingleScan cfg st scan = (st1, some ev, none)) :
    ev.downtime_seconds = truncToInt (ev.end_timestamp - ev.start_timestamp) ∧
    (20:ℤ) ≤ ev.downtime_seconds ∧
    (ev.downtime_seconds : ℚ) ≤ cfg.break_threshold ∧
    (st1.trackers scan.location).total_downtime =
      (st.trackers scan.location).total_downtime +
        (ev.end_timestamp - ev.start_timestamp) := by
  rcases hlast : (st.trackers scan.location).last_scan with _ | last
  · rw [pss_first cfg st scan hlast] at h
    simp at h
  · by_cases hgt : scan.timestamp - last.timestamp > cfg.break_threshold
    · rw [pss_break cfg st scan last hlast hgt] at h
      simp at h
    · by_cases hlt : scan.timestamp - last.timestamp < 20
      · rw [pss_small cfg st scan last hlast hgt hlt] at h
        simp at h
      · rcases hc : categorize cfg.categories (scan.timestamp - last.timestamp) with
          _ | category
        · rw [pss_err cfg st scan last hlast hgt hlt hc] at h
          simp at h
        · rw [pss_emit cfg st scan last category hlast hgt hlt hc] at h
          simp only [Prod.mk.injEq, Option.some.injEq] at h
          obtain ⟨hst, hev, -⟩ := h
          subst hst
          subst hev
          have h20 : (20:ℚ) ≤ scan.timestamp - last.timestamp := le_of_not_lt hlt
          have hbt : scan.timestamp - last.timestamp ≤ cfg.break_threshold :=
        le_of_not_lt hgt
          have h0 : (0:ℚ) ≤ scan.timestamp - last.timestamp := by linarith
          have hgap : (mkEpisode scan last category).end_timestamp -
              (mkEpisode scan last category).start_timestamp =
              scan.timestamp - last.timestamp := rfl
          refine ⟨rfl, ?_, ?_, ?_⟩
          · show (20:ℤ) ≤ truncToInt (scan.timestamp - last.timestamp)
            rw [truncToInt, if_pos h0]
            rw [Int.le_floor]
            push_cast
            exact h20
          · show ((truncToInt (scan.timestamp - last.timestamp) : ℤ) : ℚ) ≤
              cfg.break_threshold
            rw [truncToInt, if_pos h0]
            exact le_trans (Int.floor_le _) hbt
          · rw [setTracker_self, hgap]
            rfl

/-- Witness for C10: a fractional 25.5 s gap at `GA1` emits an episode whose
stored duration is the truncation of the gap and lies in the window, while
the total accumulates the exact gap. -/
theorem C10_witness :
    ∃ st1 ev,
      processSingleScan demoCfg demoState ⟨"GA1", 100 + mkRat 51 2, "T2", "STOW"⟩ =
        (st1, some ev, none) ∧
      (ev.downtime_seconds = truncToInt (ev.end_timestamp - ev.start_timestamp) ∧
       (20:ℤ) ≤ ev.downtime_seconds ∧
       (ev.downtime_seconds : ℚ) ≤ demoCfg.break_threshold ∧
       (st1.trackers "GA1").total_downtime =
         (demoState.trackers "GA1").total_downtime +
           (ev.end_timestamp - ev.start_timestamp)) := by
  have h := pss_emit demoCfg demoState ⟨"GA1", 100 + mkRat 51 2, "T2", "STOW"⟩
    ⟨100, "T1", "INDUCTED"⟩ "20-60" (by decide) (by norm_num [demoCfg])
    (by norm_num) (by norm_num [categorize, findCategory, demoCfg, demoCats])
  exact ⟨_, _, h, C10_main demoCfg demoState _ _ _ h⟩

/-! ### First-match characterization of the categorizer loop -/

theorem findCategory_eq_none (s : ℚ) (cats : List Category)
    (h : ∀ c ∈ cats, ¬(c.min ≤ s ∧ s ≤ c.max)) : findCategory s cats = none := by
  induction cats with
  | nil => rfl
  | cons c rest ih =>
    rw [findCategory, if_neg (h c (by simp))]
    exact ih (fun c' hc' => h c' (by simp [hc']))

theorem findCategory_first (s : ℚ) (pre : List Category) (c : Category)
    (post : List Category)
    (hpre : ∀ c' ∈ pre, ¬(c'.min ≤ s ∧ s ≤ c'.max))
    (hc : c.min ≤ s ∧ s ≤ c.max) :
    findCategory s (pre ++ c :: post) = some c := by
  induction pre with
  | nil => rw [List.nil_append, findCategory, if_pos hc]
  | cons p ps ih =>
    rw [List.cons_append, findCategory, if_neg (hpre p (by simp))]
    exact ih (fun c' hc' => hpre c' (by simp [hc']))

/-- In a list sorted by `min` and `max`, every member's `max` is bounded by
the last element's `max`. -/
theorem le_getLastD_max (first : Category) (rest : List Category)
    (hord : (first :: rest).Pairwise (fun a b => a.min ≤ b.min ∧ a.max ≤ b.max)) :
    ∀ c ∈ first :: rest, c.max ≤ (rest.getLastD first).max := by
  induction rest generalizing first with
  | nil =>
    intro c hc
    simp only [List.mem_singleton] at hc
    subst hc
    exact le_refl _
  | cons b bs ih =>
    intro c hc
    have h1 : first.max ≤ b.max := ((List.pairwise_cons.mp hord).1 b (by simp)).2
    have htail := (List.pairwise_cons.mp hord).2
    rw [List.getLastD_cons]
    rcases List.mem_cons.mp hc with rfl | hc'
    · exact le_trans h1 (ih b htail b (by simp))
    · exact ih b htail c hc'

/-- C5 counterexample: with the shipped category list, a 1000 s duration is
above the last category's `max` (780) and the source returns the synthetic
label `">780"` — not `"> 780"` with the space the claim states. -/
theorem C5_counterexample :
    categorize demoCats 1000 = some ">780" ∧ (">780" : String) ≠ "> 780" := by
  constructor
  · decide
  · decide

/-- C5 as amended: for a non-empty category list sorted by `min` and `max`
with well-formed ranges, `_categorize_downtime` is total; it returns the
name of the first category whose inclusive range contains the duration; a
duration below the first `min` gets the synthetic label `"<{first.min}"`;
and one above the last `max` gets `">{last.max}"` (no space — the claim's
`"> {last.max}"` is refuted above). Determinism is immediate: the embedding
is a function of its arguments. -/
theorem C5_main (first : Category) (rest : List Category) (d : ℚ)
    (hord : (first :: rest).Pairwise (fun a b => a.min ≤ b.min ∧ a.max ≤ b.max))
    (hvalid : ∀ c ∈ first :: rest, c.min ≤ c.max) :
    (categorize (first :: rest) d).isSome = true ∧
    (∀ pre c post, first :: rest = pre ++ c :: post →
      (∀ c' ∈ pre, ¬(c'.min ≤ d ∧ d ≤ c'.max)) → c.min ≤ d → d ≤ c.max →
      categorize (first :: rest) d = some c.name) ∧
    (d < first.min → categorize (first :: rest) d = some ("<" ++ ratStr first.min)) ∧
    ((rest.getLastD first).max < d →
      categorize (first :: rest) d = some (">" ++ ratStr (rest.getLastD first).max)) := by
  refine ⟨categorize_isSome _ _ (by simp), ?_, ?_, ?_⟩
  · intro pre c post hsplit hpre hc1 hc2
    rw [categorize, hsplit, findCategory_first d pre c post hpre ⟨hc1, hc2⟩]
  · intro hlt
    have hmins : ∀ c ∈ first :: rest, first.min ≤ c.min := by
      intro c hc
      rcases List.mem_cons.mp hc with rfl | hc'
      · exact le_refl _
      · exact ((List.pairwise_cons.mp hord).1 c hc').1
    have hnone : findCategory d (first :: rest) = none :=
      findCategory_eq_none d _ (fun c hc h => absurd h.1
        (not_le.mpr (lt_of_lt_of_le hlt (hmins c hc))))
    rw [categorize, hnone]
    simp only [if_pos hlt]
  · intro hgt
    have hnone : findCategory d (first :: rest) = none :=
      findCategory_eq_none d _ (fun c hc h => absurd h.2
        (not_le.mpr (lt_of_le_of_lt (le_getLastD_max first rest hord c hc) hgt)))
    have hnlt : ¬ d < first.min := by
      have h1 : first.max ≤ (rest.getLastD first).max :=
        le_getLastD_max first rest hord first (by simp)
      have h2 : first.min ≤ first.max := hvalid first (by simp)
      exact not_lt.mpr (le_trans (le_trans h2 h1) (le_of_lt hgt))
    rw [categorize, hnone]
    simp only [if_neg hnlt]

/-- Witness for C5 as amended, at the shipped category list with a 30 s
duration (contained in the first category). -/
theorem C5_witness :
    (categorize (⟨"20-60", 20, 60⟩ ::
        [⟨"60-120", 60, 120⟩, ⟨"120-780", 120, 780⟩]) 30).isSome = true ∧
    (∀ pre c post,
      (⟨"20-60", 20, 60⟩ : Category) :: [⟨"60-120", 60, 120⟩, ⟨"120-780", 120, 780⟩] =
        pre ++ c :: post →
      (∀ c' ∈ pre, ¬(c'.min ≤ (30:ℚ) ∧ (30:ℚ) ≤ c'.max)) → c.min ≤ 30 → (30:ℚ) ≤ c.max →
      categorize (⟨"20-60", 20, 60⟩ ::
        [⟨"60-120", 60, 120⟩, ⟨"120-780", 120, 780⟩]) 30 = some c.name) ∧
    ((30:ℚ) < (20:ℚ) → categorize (⟨"20-60", 20, 60⟩ ::
        [⟨"60-120", 60, 120⟩, ⟨"120-780", 120, 780⟩]) 30 = some ("<" ++ ratStr 20)) ∧
    (([⟨"60-120", 60, 120⟩, (⟨"120-780", 120, 780⟩ : Category)].getLastD
        ⟨"20-60", 20, 60⟩).max < 30 →
      categorize (⟨"20-60", 20, 60⟩ ::
        [⟨"60-120", 60, 120⟩, ⟨"120-780", 120, 780⟩]) 30 =
        some (">" ++ ratStr ([⟨"60-120", 60, 120⟩,
          (⟨"120-780", 120, 780⟩ : Category)].getLastD ⟨"20-60", 20, 60⟩).max)) :=
  C5_main ⟨"20-60", 20, 60⟩ [⟨"60-120", 60, 120⟩, ⟨"120-780", 120, 780⟩] 30
    (by decide) (by decide)

/-- Helper: after a reset, the tracker of every known location is the
initial tracker. -/
theorem reset_trackers_known (st : AnalyzerState) (L : String) (hL : L ∈ st.known) :
    (resetShiftData st).trackers L = initTracker := by
  simp [resetShiftData, hL]

/-- C8: `reset_shift_data` puts every previously-known location's tracker
back to the initial one (`last_scan` none, no episodes, zero total, all
counters zero), so the summary, recent-episode and shift-end queries all
return zero/empty results; and the set of known location keys is exactly
preserved — no tracker entry is removed. -/
theorem C8_main (st : AnalyzerState) (threshold : ℚ) (hthr : 0 ≤ threshold) :
    (resetShiftData st).known = st.known ∧
    (∀ L ∈ st.known, (resetShiftData st).trackers L = initTracker) ∧
    initTracker.last_scan = none ∧
    initTracker.downtimes = [] ∧
    initTracker.total_downtime = 0 ∧
    (∀ c, initTracker.category_counts c = 0) ∧
    getLocationSummaries (resetShiftData st) =
      st.known.map (fun l => (l, summaryOf initTracker)) ∧
    summaryOf initTracker = ⟨0, 0, fun _ => 0, none, 0⟩ ∧
    (∀ isRecent, getRecentDowntimes (resetShiftData st) isRecent = []) ∧
    checkShiftEndAlerts (resetShiftData st) threshold = [] := by
  have hsummary : summaryOf initTracker = ⟨0, 0, fun _ => 0, none, 0⟩ := by
    simp [summaryOf, initTracker, truncToInt]
  refine ⟨rfl, reset_trackers_known st, rfl, rfl, rfl, fun _ => rfl, ?_, hsummary, ?_, ?_⟩
  · unfold getLocationSummaries
    exact List.map_congr_left
      (fun l hl => by rw [reset_trackers_known st l hl])
  · intro isRecent
    unfold getRecentDowntimes
    rw [List.flatten_eq_nil_iff]
    intro l' hl'
    obtain ⟨l, hl, rfl⟩ := List.mem_map.mp hl'
    rw [reset_trackers_known st l hl]
    rfl
  · unfold checkShiftEndAlerts
    rw [List.filterMap_eq_nil_iff]
    intro l hl
    rw [reset_trackers_known st l hl]
    have : ¬ initTracker.total_downtime > threshold := by
      simp only [initTracker]
      exact not_lt.mpr hthr
    simp only [this, if_false]

/-- Witness for C8 at a state with one known location and the source's
default shift-end threshold 2100. -/
theorem C8_witness :
    (resetShiftData demoState).known = demoState.known ∧
    (∀ L ∈ demoState.known, (resetShiftData demoState).trackers L = initTracker) ∧
    initTracker.last_scan = none ∧
    initTracker.downtimes = [] ∧
    initTracker.total_downtime = 0 ∧
    (∀ c, initTracker.category_counts c = 0) ∧
    getLocationSummaries (resetShiftData demoState) =
      demoState.known.map (fun l => (l, summaryOf initTracker)) ∧
    summaryOf initTracker = ⟨0, 0, fun _ => 0, none, 0⟩ ∧
    (∀ isRecent, getRecentDowntimes (resetShiftData demoState) isRecent = []) ∧
    checkShiftEndAlerts (resetShiftData demoState) 2100 = [] :=
  C8_main demoState 2100 (by norm_num)

/-! ### The bookkeeping invariant is preserved by every operation -/

theorem inv_withLastScan (st : AnalyzerState) (loc : String) (ts : ℚ)
    (tid stat : String) (h : Inv st) :
    Inv (setTracker (touch st loc) loc (withLastScan (st.trackers loc) ts tid stat)) := by
  intro L
  by_cases hL : L = loc
  · subst hL
    rw [setTracker_self]
    exact h L
  · rw [setTracker_other _ _ _ _ hL, touch_trackers]
    exact h L

theorem inv_pss (cfg : Config) (st : AnalyzerState) (scan : Scan) (h : Inv st) :
    Inv (processSingleScan cfg st scan).1 := by
  rcases hlast : (st.trackers scan.location).last_scan with _ | last
  · rw [pss_first cfg st scan hlast]
    exact inv_withLastScan st scan.location _ _ _ h
  · by_cases hgt : scan.timestamp - last.timestamp > cfg.break_threshold
    · rw [pss_break cfg st scan last hlast hgt]
      exact inv_withLastScan st scan.location _ _ _ h
    · by_cases hlt : scan.timestamp - last.timestamp < 20
      · rw [pss_small cfg st scan last hlast hgt hlt]
        exact inv_withLastScan st scan.location _ _ _ h
      · rcases hc : categorize cfg.categories (scan.timestamp - last.timestamp) with
          _ | category
        · rw [pss_err cfg st scan last hlast hgt hlt hc]
          exact h
        · rw [pss_emit cfg st scan last category hlast hgt hlt hc]
          intro L
          by_cases hL : L = scan.location
          · subst hL
            rw [setTracker_self]
            constructor
            · show (st.trackers scan.location).total_downtime +
                  (scan.timestamp - last.timestamp) =
                (((st.trackers scan.location).downtimes ++
                  [mkEpisode scan last category]).map
                    (fun e => e.end_timestamp - e.start_timestamp)).sum
              rw [List.map_append, List.sum_append, ← (h scan.location).1]
              simp [mkEpisode]
            · intro c
              show (if c = category
                    then (st.trackers scan.location).category_counts c + 1
                    else (st.trackers scan.location).category_counts c) =
                (((st.trackers scan.location).downtimes ++
                  [mkEpisode scan last category]).countP (fun e => e.category == c))
              rw [List.countP_append, ← (h scan.location).2 c]
              rcases eq_or_ne c category with rfl | hne
              · simp [mkEpisode, List.countP_cons]
              · simp [mkEpisode, List.countP_cons, hne, Ne.symm hne]
          · rw [setTracker_other _ _ _ _ hL, touch_trackers]
            exact h L

theorem inv_loop (cfg : Config) :
    ∀ (ss : List Scan) (st : AnalyzerState), Inv st → Inv (processLoop cfg st ss).1 := by
  intro ss
  induction ss with
  | nil => intro st h; exact h
  | cons s rest ih =>
    intro st h
    have h1 : Inv (processSingleScan cfg st s).1 := inv_pss cfg st s h
    rcases hp : processSingleScan cfg st s with ⟨st1, e?, err?⟩
    rw [hp] at h1
    cases err? with
    | some e => simpa [processLoop, hp] using h1
    | none =>
      have := ih st1 h1
      simpa [processLoop, hp] using this

theorem inv_processScans (cfg : Config) (st : AnalyzerState) (scans : List Scan)
    (h : Inv st) : Inv (processScans cfg st scans).1 :=
  inv_loop cfg _ st h

theorem inv_reset (st : AnalyzerState) (h : Inv st) : Inv (resetShiftData st) := by
  intro L
  show ((if L ∈ st.known then initTracker else st.trackers L)).total_downtime = _ ∧ _
  by_cases hL : L ∈ st.known
  · simp only [resetShiftData, hL, if_true]
    exact ⟨rfl, fun c => rfl⟩
  · simp only [resetShiftData, hL, if_false]
    exact h L

theorem inv_initState : Inv initState :=
  fun _ => ⟨rfl, fun _ => rfl⟩

/-- C2 as amended: in every state reachable by ingest and reset operations,
each tracker's `total_downtime` equals the sum of the UNTRUNCATED gaps
`end_timestamp - start_timestamp` of its stored episodes (not of the
truncated `downtime_seconds` fields, which the counterexample refutes for
fractional-second gaps), and each category counter counts the episodes with
that category. -/
theorem C2_main (cfg : Config) (st : AnalyzerState) (h : Reachable cfg st) :
    Inv st := by
  induction h with
  | init => exact inv_initState
  | ingest st scans _ ih => exact inv_processScans cfg st scans ih
  | reset st _ ih => exact inv_reset st ih

/-- Witness for C2 as amended, at the freshly constructed analyzer. -/
theorem C2_witness : Inv initState :=
  C2_main demoCfg initState Reachable.init

/-- C2 counterexample: two scans 25.5 s apart at `GA1` reach a state whose
tracker has `total_downtime = 25.5` (the untruncated float accumulation of
line 102) while its single episode stores `duration_seconds = 25`
(the `int()` truncation of line 89), so `total_downtime` differs from the
sum of the stored episode durations, refuting the claimed invariant for
fractional-second gaps. -/
theorem C2_counterexample :
    Reachable demoCfg
      (processScans demoCfg initState
        [⟨"GA1", 0, "T1", "INDUCTED"⟩, ⟨"GA1", mkRat 51 2, "T2", "INDUCTED"⟩]).1 ∧
    ((processScans demoCfg initState
        [⟨"GA1", 0, "T1", "INDUCTED"⟩, ⟨"GA1", mkRat 51 2, "T2", "INDUCTED"⟩]).1.trackers
        "GA1").total_downtime = mkRat 51 2 ∧
    (((processScans demoCfg initState
        [⟨"GA1", 0, "T1", "INDUCTED"⟩, ⟨"GA1", mkRat 51 2, "T2", "INDUCTED"⟩]).1.trackers
        "GA1").downtimes.map (fun e => (e.downtime_seconds : ℚ))).sum = 25 ∧
    (mkRat 51 2 : ℚ) ≠ 25 := by
  refine ⟨Reachable.ingest initState _ Reachable.init, ?_⟩
  norm_num [processScans, processLoop, processSingleScan, List.insertionSort,
    List.orderedInsert, tsLE, touch, setTracker, withLastScan, trackEpisode,
    mkEpisode, categorize, findCategory, truncToInt, initState, initTracker,
    demoCfg, demoCats, Function.update, Rat.mkRat_eq_div]

/-! ### Behaviour with an empty category list -/

/-- With no categories, a single scan never emits an episode (the only
emitting branch needs a successful categorization). -/
theorem pss_no_emit_of_nil (cfg : Config) (st : AnalyzerState) (scan : Scan)
    (hcats : cfg.categories = []) : (processSingleScan cfg st scan).2.1 = none := by
  rcases hlast : (st.trackers scan.location).last_scan with _ | last
  · rw [pss_first cfg st scan hlast]
  · by_cases hgt : scan.timestamp - last.timestamp > cfg.break_threshold
    · rw [pss_break cfg st scan last hlast hgt]
    · by_cases hlt : scan.timestamp - last.timestamp < 20
      · rw [pss_small cfg st scan last hlast hgt hlt]
      · rw [pss_err cfg st scan last hlast hgt hlt (by rw [hcats]; rfl)]

theorem loop_no_emit_of_nil (cfg : Config) (hcats : cfg.categories = []) :
    ∀ (ss : List Scan) (st : AnalyzerState), (processLoop cfg st ss).2.1 = [] := by
  intro ss
  induction ss with
  | nil => intro st; rfl
  | cons s rest ih =>
    intro st
    have hne := pss_no_emit_of_nil cfg st s hcats
    rcases hp : processSingleScan cfg st s with ⟨st1, e?, err?⟩
    rw [hp] at hne
    simp only at hne
    subst hne
    cases err? with
    | some e => simp [processLoop, hp]
    | none =>
      rcases hrec : processLoop cfg st1 rest with ⟨st2, evs, err2⟩
      have := ih st1
      rw [hrec] at this
      simp only at this
      subst this
      simp [processLoop, hp, hrec]

/-- C6 counterexample: an engine built with an EMPTY category list and the
default 780 s threshold, fed two `GA1` scans 45 s apart (inside the tracked
window), raises `IndexError` from `self.categories[0]` instead of returning
no episodes gracefully. -/
theorem C6_counterexample :
    (processScans ⟨[], 780⟩ initState
      [⟨"GA1", 0, "T1", "INDUCTED"⟩, ⟨"GA1", 45, "T2", "INDUCTED"⟩]).2.2 =
      some PyError.indexError := by
  norm_num [processScans, processLoop, processSingleScan, List.insertionSort,
    List.orderedInsert, tsLE, touch, setTracker, withLastScan, categorize,
    findCategory, initState, initTracker, Function.update]

/-- C6 as amended: with an empty category list a zero-length batch still
returns no episodes without raising, and no batch ever emits an episode —
but a scan whose gap lies in the tracked window `[20, break_threshold]`
raises `IndexError` rather than being handled gracefully. -/
theorem C6_main (cfg : Config) (st : AnalyzerState) (scan : Scan) (last : LastScan)
    (hcats : cfg.categories = [])
    (hlast : (st.trackers scan.location).last_scan = some last)
    (h20 : 20 ≤ scan.timestamp - last.timestamp)
    (hbt : scan.timestamp - last.timestamp ≤ cfg.break_threshold) :
    processScans cfg st [] = (st, [], none) ∧
    (∀ scans, (processScans cfg st scans).2.1 = []) ∧
    processSingleScan cfg st scan =
      (touch st scan.location, none, some PyError.indexError) := by
  refine ⟨rfl, fun scans => loop_no_emit_of_nil cfg hcats _ st, ?_⟩
  exact pss_err cfg st scan last hlast (not_lt.mpr hbt) (not_lt.mpr h20)
    (by rw [hcats]; rfl)

/-- Witness for C6 as amended: empty categories, `GA1` tracked at t = 100,
scan at t = 145 (45 s gap). -/
theorem C6_witness :
    processScans ⟨[], 780⟩ demoState [] = (demoState, [], none) ∧
    (∀ scans, (processScans ⟨[], 780⟩ demoState scans).2.1 = []) ∧
    processSingleScan ⟨[], 780⟩ demoState ⟨"GA1", 145, "T2", "STOW"⟩ =
      (touch demoState "GA1", none, some PyError.indexError) :=
  C6_main ⟨[], 780⟩ demoState ⟨"GA1", 145, "T2", "STOW"⟩ ⟨100, "T1", "INDUCTED"⟩
    rfl (by decide) (by norm_num) (by norm_num)

/-! ### Malformed raw events -/

/-- A malformed raw event always raises: each field the source reads is
read in every branch before the function returns. -/
theorem pssRaw_err (cfg : Config) (st : AnalyzerState) (r : RawScan)
    (hm : malformed r) : (processSingleRaw cfg st r).2.2.isSome := by
  rcases r with ⟨loc?, ts?, tid?, stat?⟩
  rcases loc? with _ | loc
  · simp [processSingleRaw]
  · rcases ts? with _ | ts
    · simp [processSingleRaw]
    · rcases hm with h | h | h | h
      · cases h
      · cases h
      · subst h
        simp only [processSingleRaw]
        repeat' split
        all_goals simp
      · rcases tid? with _ | tid
        · simp only [processSingleRaw]
          repeat' split
          all_goals simp
        · subst h
          simp only [processSingleRaw]
          repeat' split
          all_goals simp

theorem loopRaw_err (cfg : Config) :
    ∀ (rs : List RawScan) (st : AnalyzerState), (∃ r ∈ rs, malformed r) →
      (processLoopRaw cfg st rs).2.2.isSome := by
  intro rs
  induction rs with
  | nil =>
    rintro st ⟨r, hr, -⟩
    cases hr
  | cons r0 rest ih =>
    rintro st ⟨r, hr, hm⟩
    rcases hp : processSingleRaw cfg st r0 with ⟨st1, e?, err?⟩
    cases err? with
    | some e => simp [processLoopRaw, hp]
    | none =>
      rcases List.mem_cons.mp hr with rfl | hr'
      · have hcontra := pssRaw_err cfg st r hm
        rw [hp] at hcontra
        simp at hcontra
      · rcases hrec : processLoopRaw cfg st1 rest with ⟨st2, evs, err2⟩
        have := ih st1 ⟨r, hr', hm⟩
        rw [hrec] at this
        simp only [Option.isSome] at this ⊢
        simp [processLoopRaw, hp, hrec]
        rcases err2 with _ | e2
        · simp at this
        · simp

/-- C4 as amended: a batch containing a malformed event (any missing field)
makes `process_scans` raise an exception to the caller instead of skipping
that event: a missing `timestamp` aborts before any event is processed (the
sort key fails), any other missing field aborts the batch at that event. -/
theorem C4_main (cfg : Config) (st : AnalyzerState) (raws : List RawScan)
    (h : ∃ r ∈ raws, malformed r) :
    (processScansRaw cfg st raws).2.2.isSome := by
  unfold processScansRaw
  by_cases hall : raws.all (fun r => r.timestamp.isSome)
  · rw [if_pos hall]
    obtain ⟨r, hr, hm⟩ := h
    exact loopRaw_err cfg _ st
      ⟨r, ((List.perm_insertionSort rawLE raws).mem_iff).mpr hr, hm⟩
  · rw [if_neg hall]
    rfl

/-- Witness for C4 as amended: a two-event batch whose second event lacks
its `location` field. -/
theorem C4_witness :
    (processScansRaw demoCfg initState
      [⟨some "GA1", some 0, some "T1", some "INDUCTED"⟩,
       ⟨none, some 30, some "T2", some "INDUCTED"⟩]).2.2.isSome :=
  C4_main demoCfg initState _
    ⟨⟨none, some 30, some "T2", some "INDUCTED"⟩, by simp, Or.inl rfl⟩

/-- C4 counterexample: the same batch of one well-formed `GA1` scan at t = 0,
one event missing `location` at t = 30, and a well-formed `GA1` scan at
t = 45: the source raises `KeyError('location')` and yields no episodes,
whereas the batch without the malformed event yields one 45 s episode — so
the malformed event is not skipped and the rest is not processed as claimed. -/
theorem C4_counterexample :
    (processScansRaw demoCfg initState
      [⟨some "GA1", some 0, some "T1", some "INDUCTED"⟩,
       ⟨none, some 30, some "T2", some "INDUCTED"⟩,
       ⟨some "GA1", some 45, some "T3", some "INDUCTED"⟩]).2.2 =
      some (PyError.keyError "location") ∧
    (processScansRaw demoCfg initState
      [⟨some "GA1", some 0, some "T1", some "INDUCTED"⟩,
       ⟨none, some 30, some "T2", some "INDUCTED"⟩,
       ⟨some "GA1", some 45, some "T3", some "INDUCTED"⟩]).2.1 = [] ∧
    (processScans demoCfg initState
      [⟨"GA1", 0, "T1", "INDUCTED"⟩, ⟨"GA1", 45, "T3", "INDUCTED"⟩]).2.1.length = 1 := by
  refine ⟨?_, ?_, ?_⟩ <;>
    norm_num [processScansRaw, processLoopRaw, processSingleRaw, processScans,
      processLoop, processSingleScan, List.insertionSort, List.orderedInsert,
      rawLE, tsLE, touch, setTracker, withLastScan, trackEpisode, mkEpisode,
      categorize, findCategory, truncToInt, initState, initTracker, demoCfg,
      demoCats, Function.update]

/-! ### The duration-sum identity for a single-location stream -/

/-- Core sum identity for the processing loop: starting from a tracked
`last_scan`, the truncated durations of the emitted episodes sum to the sum
of the truncations of exactly those consecutive gaps lying in the INCLUSIVE
window `[20, break_threshold]`. -/
theorem loop_sum (cfg : Config) (hcats : cfg.categories ≠ []) (L : String) :
    ∀ (scans : List Scan) (st : AnalyzerState) (last : LastScan),
      (∀ s ∈ scans, s.location = L) →
      (st.trackers L).last_scan = some last →
      (processLoop cfg st scans).2.2 = none ∧
      ((processLoop cfg st scans).2.1.map (fun e => e.downtime_seconds)).sum =
        (((gapsOf (last.timestamp :: scans.map (fun s => s.timestamp))).filter
          (fun g => decide (20 ≤ g ∧ g ≤ cfg.break_threshold))).map truncToInt).sum := by
  intro scans
  induction scans with
  | nil => exact fun st last _ _ => ⟨rfl, rfl⟩
  | cons s rest ih =>
    intro st last hloc hlast
    obtain ⟨loc, ts, tid, stat⟩ := s
    have hl : loc = L := hloc ⟨loc, ts, tid, stat⟩ (List.mem_cons_self _ _)
    subst hl
    have hlast' : (st.trackers (Scan.mk loc ts tid stat).location).last_scan =
        some last := hlast
    have hrest : ∀ s ∈ rest, s.location = loc := fun s hs =>
      hloc s (List.mem_cons_of_mem _ hs)
    by_cases hgt : ts - last.timestamp > cfg.break_threshold
    · have hp := pss_break cfg st ⟨loc, ts, tid, stat⟩ last hlast' hgt
      have hnew : ((setTracker (touch st loc) loc
          (withLastScan (st.trackers loc) ts tid stat)).trackers loc).last_scan =
          some ⟨ts, tid, stat⟩ := by rw [setTracker_self]; rfl
      obtain ⟨herr, hsum⟩ := ih _ ⟨ts, tid, stat⟩ hrest hnew
      rcases hrec : processLoop cfg (setTracker (touch st loc) loc
          (withLastScan (st.trackers loc) ts tid stat)) rest with ⟨st2, evs, err2⟩
      rw [hrec] at herr hsum
      simp only at herr hsum
      constructor
      · simp [processLoop, hp, hrec, herr]
      · have hdrop : ¬ (20 ≤ ts - last.timestamp ∧
            ts - last.timestamp ≤ cfg.break_threshold) := fun h => absurd hgt
          (not_lt.mpr h.2)
        simp only [processLoop, hp, hrec, List.map_cons, gapsOf, List.filter_cons,
          hdrop, decide_False]
        simpa using hsum
    · by_cases hlt : ts - last.timestamp < 20
      · have hp := pss_small cfg st ⟨loc, ts, tid, stat⟩ last hlast' hgt hlt
        have hnew : ((setTracker (touch st loc) loc
            (withLastScan (st.trackers loc) ts tid stat)).trackers loc).last_scan =
            some ⟨ts, tid, stat⟩ := by rw [setTracker_self]; rfl
        obtain ⟨herr, hsum⟩ := ih _ ⟨ts, tid, stat⟩ hrest hnew
        rcases hrec : processLoop cfg (setTracker (touch st loc) loc
            (withLastScan (st.trackers loc) ts tid stat)) rest with ⟨st2, evs, err2⟩
        rw [hrec] at herr hsum
        simp only at herr hsum
        constructor
        · simp [processLoop, hp, hrec, herr]
        · have hdrop : ¬ (20 ≤ ts - last.timestamp ∧
              ts - last.timestamp ≤ cfg.break_threshold) := fun h => absurd h.1
            (not_le.mpr hlt)
          simp only [processLoop, hp, hrec, List.map_cons, gapsOf, List.filter_cons,
            hdrop, decide_False]
          simpa using hsum
      · obtain ⟨category, hc⟩ :=
          Option.isSome_iff_exists.mp (categorize_isSome cfg.categories _ hcats)
        have hp := pss_emit cfg st ⟨loc, ts, tid, stat⟩ last category hlast' hgt hlt hc
        have hnew : ((setTracker (touch st loc) loc
            (trackEpisode (st.trackers loc) ⟨loc, ts, tid, stat⟩ (ts - last.timestamp)
              category (mkEpisode ⟨loc, ts, tid, stat⟩ last category))).trackers
                loc).last_scan = some ⟨ts, tid, stat⟩ := by
          rw [setTracker_self]; rfl
        obtain ⟨herr, hsum⟩ := ih _ ⟨ts, tid, stat⟩ hrest hnew
        rcases hrec : processLoop cfg (setTracker (touch st loc) loc
            (trackEpisode (st.trackers loc) ⟨loc, ts, tid, stat⟩ (ts - last.timestamp)
              category (mkEpisode ⟨loc, ts, tid, stat⟩ last category))) rest with
          ⟨st2, evs, err2⟩
        rw [hrec] at herr hsum
        simp only at herr hsum
        constructor
        · simp [processLoop, hp, hrec, herr]
        · have hkeep : (20 ≤ ts - last.timestamp ∧
              ts - last.timestamp ≤ cfg.break_threshold) :=
            ⟨le_of_not_lt hlt, le_of_not_lt hgt⟩
          simp only [processLoop, hp, hrec, List.map_cons, gapsOf, List.filter_cons,
            hkeep, decide_True]
          simp only [List.map_cons, List.sum_cons, Option.toList_some,
            List.cons_append, List.nil_append]
          rw [hsum]
          rfl


/-- C3 as amended: for a single-location batch with strictly increasing
timestamps ingested into a fresh engine, the sum of the stored (truncated)
episode durations equals the sum of the TRUNCATIONS of exactly those
consecutive gaps lying in the INCLUSIVE window `[20, break_threshold]`
(the claim's "strictly between" boundaries and its identification of stored
durations with raw gaps are refuted by the counterexample). -/
theorem C3_main (cfg : Config) (hcats : cfg.categories ≠ []) (L : String)
    (scans : List Scan)
    (hloc : ∀ s ∈ scans, s.location = L)
    (hmono : List.Chain' (fun a b => a.timestamp < b.timestamp) scans) :
    (processScans cfg initState scans).2.2 = none ∧
    ((processScans cfg initState scans).2.1.map (fun e => e.downtime_seconds)).sum =
      (((gapsOf (scans.map (fun s => s.timestamp))).filter
        (fun g => decide (20 ≤ g ∧ g ≤ cfg.break_threshold))).map truncToInt).sum := by
  have hsorted : List.Sorted tsLE scans := by
    haveI : IsTrans Scan (fun a b => a.timestamp < b.timestamp) :=
      ⟨fun _ _ _ h1 h2 => lt_trans h1 h2⟩
    exact (List.chain'_iff_pairwise.mp hmono).imp le_of_lt
  unfold processScans
  rw [hsorted.insertionSort_eq]
  cases scans with
  | nil => exact ⟨rfl, rfl⟩
  | cons s rest =>
    obtain ⟨loc, ts, tid, stat⟩ := s
    have hl : loc = L := hloc ⟨loc, ts, tid, stat⟩ (List.mem_cons_self _ _)
    subst hl
    have hrest : ∀ s ∈ rest, s.location = loc := fun s hs =>
      hloc s (List.mem_cons_of_mem _ hs)
    have hfirst : (initState.trackers
        (Scan.mk loc ts tid stat).location).last_scan = none := rfl
    have hp := pss_first cfg initState ⟨loc, ts, tid, stat⟩ hfirst
    have hnew : ((setTracker (touch initState loc) loc
        (withLastScan (initState.trackers loc) ts tid stat)).trackers loc).last_scan =
        some ⟨ts, tid, stat⟩ := by rw [setTracker_self]; rfl
    obtain ⟨herr, hsum⟩ := loop_sum cfg hcats loc rest _ ⟨ts, tid, stat⟩ hrest hnew
    rcases hrec : processLoop cfg (setTracker (touch initState loc) loc
        (withLastScan (initState.trackers loc) ts tid stat)) rest with ⟨st2, evs, err2⟩
    rw [hrec] at herr hsum
    simp only at herr hsum
    constructor
    · simp [processLoop, hp, hrec, herr]
    · simp only [processLoop, hp, hrec, List.map_cons, Option.toList_none,
        List.nil_append]
      exact hsum

/-- C3 counterexample: one location, scans at t = 0, 20, 40.5. The emitted
episodes store durations 20 and 20 (sum 40): the 20 s gap is INCLUDED
(inclusive boundary) and the 20.5 s gap is truncated; the sum of the gaps
strictly between 20 and 780 is 20.5 — the two sums differ. -/
theorem C3_counterexample :
    ((processScans demoCfg initState
        [⟨"GA1", 0, "T1", "INDUCTED"⟩, ⟨"GA1", 20, "T2", "INDUCTED"⟩,
         ⟨"GA1", mkRat 81 2, "T3", "INDUCTED"⟩]).2.1.map
      (fun e => (e.downtime_seconds : ℚ))).sum = 40 ∧
    ((gapsOf ([(⟨"GA1", 0, "T1", "INDUCTED"⟩ : Scan), ⟨"GA1", 20, "T2", "INDUCTED"⟩,
         ⟨"GA1", mkRat 81 2, "T3", "INDUCTED"⟩].map (fun s => s.timestamp))).filter
      (fun g => decide (20 < g ∧ g < demoCfg.break_threshold))).sum = mkRat 41 2 ∧
    (40 : ℚ) ≠ mkRat 41 2 := by
  refine ⟨?_, ?_, by norm_num [Rat.mkRat_eq_div]⟩ <;>
    norm_num [processScans, processLoop, processSingleScan, List.insertionSort,
      List.orderedInsert, tsLE, touch, setTracker, withLastScan, trackEpisode,
      mkEpisode, categorize, findCategory, truncToInt, initState, initTracker,
      demoCfg, demoCats, Function.update, gapsOf, List.filter_cons,
      Rat.mkRat_eq_div]

/-- Witness for C3 as amended: fresh engine, `GA1` scans at t = 0 and t = 45. -/
theorem C3_witness :
    (processScans demoCfg initState
      [⟨"GA1", 0, "T1", "INDUCTED"⟩, ⟨"GA1", 45, "T2", "INDUCTED"⟩]).2.2 = none ∧
    ((processScans demoCfg initState
        [⟨"GA1", 0, "T1", "INDUCTED"⟩, ⟨"GA1", 45, "T2", "INDUCTED"⟩]).2.1.map
      (fun e => e.downtime_seconds)).sum =
      (((gapsOf ([(⟨"GA1", 0, "T1", "INDUCTED"⟩ : Scan),
          ⟨"GA1", 45, "T2", "INDUCTED"⟩].map (fun s => s.timestamp))).filter
        (fun g => decide (20 ≤ g ∧ g ≤ demoCfg.break_threshold))).map truncToInt).sum :=
  C3_main demoCfg (by decide) "GA1"
    [⟨"GA1", 0, "T1", "INDUCTED"⟩, ⟨"GA1", 45, "T2", "INDUCTED"⟩]
    (by decide) (List.chain'_pair.mpr (by norm_num))


/-! ### Stability: filtering commutes with the timestamp sort -/

theorem orderedInsert_eq_cons (a : Scan) (l : List Scan)
    (h : ∀ c ∈ l, tsLE a c) : List.orderedInsert tsLE a l = a :: l := by
  cases l with
  | nil => rfl
  | cons c cs => simp [List.orderedInsert, if_pos (h c (List.mem_cons_self _ _))]

theorem orderedInsert_filter (p : Scan → Bool) (a : Scan) :
    ∀ l : List Scan, List.Sorted tsLE l →
      (List.orderedInsert tsLE a l).filter p =
        if p a then List.orderedInsert tsLE a (l.filter p) else l.filter p := by
  intro l
  induction l with
  | nil =>
    intro _
    cases hpa : p a <;> simp [List.orderedInsert, List.filter_cons, hpa]
  | cons b bs ih =>
    intro hsorted
    have hsbs : List.Sorted tsLE bs := hsorted.of_cons
    have hble : ∀ c ∈ bs, tsLE b c := List.rel_of_sorted_cons hsorted
    by_cases hab : tsLE a b
    · have hall : ∀ c ∈ (b :: bs).filter p, tsLE a c := by
        intro c hc
        rcases List.mem_cons.mp (List.mem_of_mem_filter hc) with rfl | hcs
        · exact hab
        · exact le_trans hab (hble c hcs)
      have hLHS : List.orderedInsert tsLE a (b :: bs) = a :: b :: bs := by
        rw [List.orderedInsert, if_pos hab]
      rw [hLHS]
      cases hpa : p a
      · simp [List.filter_cons, hpa]
      · rw [if_pos rfl, orderedInsert_eq_cons a _ hall]
        simp [List.filter_cons, hpa]
    · have hLHS : List.orderedInsert tsLE a (b :: bs) =
          b :: List.orderedInsert tsLE a bs := by
        rw [List.orderedInsert, if_neg hab]
      rw [hLHS]
      cases hpb : p b
      · simp only [List.filter_cons, hpb, Bool.false_eq_true, if_false]
        exact ih hsbs
      · simp only [List.filter_cons, hpb, if_pos rfl]
        rw [ih hsbs]
        cases hpa : p a
        · simp
        · have hoi : List.orderedInsert tsLE a (b :: List.filter p bs) =
              b :: List.orderedInsert tsLE a (List.filter p bs) := by
            rw [List.orderedInsert, if_neg hab]
          simp [hoi, hab]

theorem insertionSort_filter (p : Scan → Bool) :
    ∀ l : List Scan,
      (List.insertionSort tsLE l).filter p = List.insertionSort tsLE (l.filter p) := by
  intro l
  induction l with
  | nil => rfl
  | cons a as ih =>
    rw [List.insertionSort,
      orderedInsert_filter p a _ (List.sorted_insertionSort tsLE as), ih]
    cases hpa : p a
    · simp only [List.filter_cons, hpa, Bool.false_eq_true, if_false]
    · simp [List.filter_cons, hpa, List.insertionSort]

/-! ### Per-location locality of the processing loop -/

/-- With a non-empty category list, a single scan never raises. -/
theorem pss_ok (cfg : Config) (hcats : cfg.categories ≠ []) (st : AnalyzerState)
    (scan : Scan) : (processSingleScan cfg st scan).2.2 = none := by
  rcases hlast : (st.trackers scan.location).last_scan with _ | last
  · rw [pss_first cfg st scan hlast]
  · by_cases hgt : scan.timestamp - last.timestamp > cfg.break_threshold
    · rw [pss_break cfg st scan last hlast hgt]
    · by_cases hlt : scan.timestamp - last.timestamp < 20
      · rw [pss_small cfg st scan last hlast hgt hlt]
      · obtain ⟨category, hc⟩ :=
          Option.isSome_iff_exists.mp (categorize_isSome cfg.categories _ hcats)
        rw [pss_emit cfg st scan last category hlast hgt hlt hc]

/-- A scan at one location leaves every other location's tracker unchanged. -/
theorem pss_frame (cfg : Config) (st : AnalyzerState) (scan : Scan) (L : String)
    (hL : L ≠ scan.location) :
    (processSingleScan cfg st scan).1.trackers L = st.trackers L := by
  rcases hlast : (st.trackers scan.location).last_scan with _ | last
  · rw [pss_first cfg st scan hlast]
    rw [setTracker_other _ _ _ _ hL, touch_trackers]
  · by_cases hgt : scan.timestamp - last.timestamp > cfg.break_threshold
    · rw [pss_break cfg st scan last hlast hgt]
      rw [setTracker_other _ _ _ _ hL, touch_trackers]
    · by_cases hlt : scan.timestamp - last.timestamp < 20
      · rw [pss_small cfg st scan last hlast hgt hlt]
        rw [setTracker_other _ _ _ _ hL, touch_trackers]
      · rcases hc : categorize cfg.categories (scan.timestamp - last.timestamp) with
          _ | category
        · rw [pss_err cfg st scan last hlast hgt hlt hc, touch_trackers]
        · rw [pss_emit cfg st scan last category hlast hgt hlt hc]
          rw [setTracker_other _ _ _ _ hL, touch_trackers]

/-- Every emitted episode carries the location of the scan that closed it. -/
theorem pss_ev_location (cfg : Config) (st : AnalyzerState) (scan : Scan)
    (ev : Episode) (h : (processSingleScan cfg st scan).2.1 = some ev) :
    ev.location = scan.location := by
  rcases hlast : (st.trackers scan.location).last_scan with _ | last
  · rw [pss_first cfg st scan hlast] at h
    cases h
  · by_cases hgt : scan.timestamp - last.timestamp > cfg.break_threshold
    · rw [pss_break cfg st scan last hlast hgt] at h
      cases h
    · by_cases hlt : scan.timestamp - last.timestamp < 20
      · rw [pss_small cfg st scan last hlast hgt hlt] at h
        cases h
      · rcases hc : categorize cfg.categories (scan.timestamp - last.timestamp) with
          _ | category
        · rw [pss_err cfg st scan last hlast hgt hlt hc] at h
          cases h
        · rw [pss_emit cfg st scan last category hlast hgt hlt hc] at h
          simp only [Option.some.injEq] at h
          subst h
          rfl

/-- Two states agreeing on a scan's location tracker process that scan to
the same new tracker, the same emitted episode and the same exception. -/
theorem pss_agree (cfg : Config) (st st' : AnalyzerState) (scan : Scan)
    (hagree : st.trackers scan.location = st'.trackers scan.location) :
    (processSingleScan cfg st scan).1.trackers scan.location =
      (processSingleScan cfg st' scan).1.trackers scan.location ∧
    (processSingleScan cfg st scan).2.1 = (processSingleScan cfg st' scan).2.1 ∧
    (processSingleScan cfg st scan).2.2 = (processSingleScan cfg st' scan).2.2 := by
  rcases hlast : (st.trackers scan.location).last_scan with _ | last
  · have hlast' : (st'.trackers scan.location).last_scan = none := by
      rw [← hagree]; exact hlast
    rw [pss_first cfg st scan hlast, pss_first cfg st' scan hlast']
    refine ⟨?_, rfl, rfl⟩
    rw [setTracker_self, setTracker_self, hagree]
  · have hlast' : (st'.trackers scan.location).last_scan = some last := by
      rw [← hagree]; exact hlast
    by_cases hgt : scan.timestamp - last.timestamp > cfg.break_threshold
    · rw [pss_break cfg st scan last hlast hgt, pss_break cfg st' scan last hlast' hgt]
      refine ⟨?_, rfl, rfl⟩
      rw [setTracker_self, setTracker_self, hagree]
    · by_cases hlt : scan.timestamp - last.timestamp < 20
      · rw [pss_small cfg st scan last hlast hgt hlt,
          pss_small cfg st' scan last hlast' hgt hlt]
        refine ⟨?_, rfl, rfl⟩
        rw [setTracker_self, setTracker_self, hagree]
      · rcases hc : categorize cfg.categories (scan.timestamp - last.timestamp) with
          _ | category
        · rw [pss_err cfg st scan last hlast hgt hlt hc,
            pss_err cfg st' scan last hlast' hgt hlt hc]
          exact ⟨by rw [touch_trackers, touch_trackers, hagree], rfl, rfl⟩
        · rw [pss_emit cfg st scan last category hlast hgt hlt hc,
            pss_emit cfg st' scan last category hlast' hgt hlt hc]
          refine ⟨?_, rfl, rfl⟩
          rw [setTracker_self, setTracker_self, hagree]

theorem loop_locality (cfg : Config) (hcats : cfg.categories ≠ []) (L : String) :
    ∀ (ss : List Scan) (st st' : AnalyzerState),
      st.trackers L = st'.trackers L →
      (processLoop cfg st ss).1.trackers L =
        (processLoop cfg st' (ss.filter (fun s => s.location == L))).1.trackers L ∧
      (processLoop cfg st ss).2.1.filter (fun e => e.location == L) =
        (processLoop cfg st' (ss.filter (fun s => s.location == L))).2.1 := by
  intro ss
  induction ss with
  | nil => exact fun st st' h => ⟨h, rfl⟩
  | cons s rest ih =>
    intro st st' hagree
    have herr := pss_ok cfg hcats st s
    rcases hp : processSingleScan cfg st s with ⟨st1, e?, err?⟩
    rw [hp] at herr
    simp only at herr
    subst herr
    by_cases hsl : s.location = L
    · have hfs : (fun s => s.location == L) s = true := beq_iff_eq.mpr hsl
      have hagree0 : st.trackers s.location = st'.trackers s.location := by
        rw [hsl]; exact hagree
      obtain ⟨ha1, ha2, ha3⟩ := pss_agree cfg st st' s hagree0
      rw [hp] at ha1 ha2 ha3
      simp only at ha1 ha2 ha3
      rcases hp' : processSingleScan cfg st' s with ⟨st1', e1?, err1?⟩
      rw [hp'] at ha1 ha2 ha3
      simp only at ha1 ha2 ha3
      subst ha2
      have herr1 : err1? = none := ha3.symm
      subst herr1
      have hagree1 : st1.trackers L = st1'.trackers L := by
        rw [hsl] at ha1; exact ha1
      obtain ⟨ih1, ih2⟩ := ih st1 st1' hagree1
      rcases hrec : processLoop cfg st1 rest with ⟨st2, evs, err2⟩
      rcases hrec' : processLoop cfg st1'
          (rest.filter (fun s => s.location == L)) with ⟨st2', evs', err2'⟩
      rw [hrec, hrec'] at ih1 ih2
      simp only at ih1 ih2
      constructor
      · simp only [processLoop, hp, hrec, List.filter_cons, hfs, if_pos rfl,
          hp', hrec']
        exact ih1
      · simp only [processLoop, hp, hrec, List.filter_cons, hfs, if_pos rfl,
          hp', hrec']
        rw [List.filter_append, ih2]
        congr 1
        rcases e? with _ | ev
        · rfl
        · have hevloc : ev.location = s.location :=
            pss_ev_location cfg st s ev (by rw [hp])
          simp [List.filter_cons, hevloc, hsl]
    · have hfs : (fun s => s.location == L) s = false := by
        simp [beq_eq_false_iff_ne, hsl]
      have hagree1 : st1.trackers L = st'.trackers L := by
        have := pss_frame cfg st s L (fun h => hsl h.symm)
        rw [hp] at this
        simp only at this
        rw [this]
        exact hagree
      obtain ⟨ih1, ih2⟩ := ih st1 st' hagree1
      rcases hrec : processLoop cfg st1 rest with ⟨st2, evs, err2⟩
      rw [hrec] at ih1 ih2
      simp only at ih1 ih2
      constructor
      · simp only [processLoop, hp, hrec, List.filter_cons, hfs,
          Bool.false_eq_true, if_false]
        exact ih1
      · simp only [processLoop, hp, hrec, List.filter_cons, hfs,
          Bool.false_eq_true, if_false]
        rw [List.filter_append, ih2]
        rcases e? with _ | ev
        · rfl
        · have hevloc : ev.location = s.location :=
            pss_ev_location cfg st s ev (by rw [hp])
          have : (fun e : Episode => e.location == L) ev = false := by
            simp [beq_eq_false_iff_ne, hevloc, hsl]
          simp [List.filter_cons, this]


/-- C9: ingesting one multi-location batch is, per location, identical to
ingesting a separate batch of just that location's events: the sort by
timestamp is stable, so each location's events are processed in the same
per-location chronological order either way, yielding the same tracker
state and the same episodes for that location. -/
theorem C9_main (cfg : Config) (hcats : cfg.categories ≠ []) (st : AnalyzerState)
    (scans : List Scan) (L : String) :
    (processScans cfg st scans).1.trackers L =
      (processScans cfg st (scans.filter (fun s => s.location == L))).1.trackers L ∧
    (processScans cfg st scans).2.1.filter (fun e => e.location == L) =
      (processScans cfg st (scans.filter (fun s => s.location == L))).2.1 := by
  unfold processScans
  rw [← insertionSort_filter]
  exact loop_locality cfg hcats L (List.insertionSort tsLE scans) st st rfl

/-- Witness for C9: a batch interleaving `GA2` and `GA1` out of order,
projected to `GA1`. -/
theorem C9_witness :
    (processScans demoCfg initState
      [⟨"GA2", 30, "T3", "INDUCT"⟩, ⟨"GA1", 45, "T2", "INDUCTED"⟩,
       ⟨"GA1", 0, "T1", "INDUCTED"⟩, ⟨"GA2", 95, "T5", "AT_STATION"⟩]).1.trackers
      "GA1" =
      (processScans demoCfg initState
        ([⟨"GA2", 30, "T3", "INDUCT"⟩, ⟨"GA1", 45, "T2", "INDUCTED"⟩,
          ⟨"GA1", 0, "T1", "INDUCTED"⟩, ⟨"GA2", 95, "T5", "AT_STATION"⟩].filter
          (fun s => s.location == "GA1"))).1.trackers "GA1" ∧
    (processScans demoCfg initState
      [⟨"GA2", 30, "T3", "INDUCT"⟩, ⟨"GA1", 45, "T2", "INDUCTED"⟩,
       ⟨"GA1", 0, "T1", "INDUCTED"⟩, ⟨"GA2", 95, "T5", "AT_STATION"⟩]).2.1.filter
      (fun e => e.location == "GA1") =
      (processScans demoCfg initState
        ([⟨"GA2", 30, "T3", "INDUCT"⟩, ⟨"GA1", 45, "T2", "INDUCTED"⟩,
          ⟨"GA1", 0, "T1", "INDUCTED"⟩, ⟨"GA2", 95, "T5", "AT_STATION"⟩].filter
          (fun s => s.location == "GA1"))).2.1 :=
  C9_main demoCfg (by decide) initState
    [⟨"GA2", 30, "T3", "INDUCT"⟩, ⟨"GA1", 45, "T2", "INDUCTED"⟩,
     ⟨"GA1", 0, "T1", "INDUCTED"⟩, ⟨"GA2", 95, "T5", "AT_STATION"⟩] "GA1"

end Induct
